import Mathlib

/- Shallow embedding of the journal format (src/db/dur_journalformat.h) and of
the page-aligned buffer builder (src/util/alignedbuilder.h). Bytes are
modelled as Nat values below 256; multi-byte integer fields are sequences of
little-endian bytes; machine arithmetic is explicit where it matters. -/

/-- Little-endian byte image of a value in `w` bytes: byte 0 is the least
significant. This is the storage meaning of the fixed-width fields wrapped in
the external little-endian helpers of the source. -/
def toLEBytes : Nat → Nat → List Nat
  | 0, _ => []
  | w + 1, v => v % 256 :: toLEBytes w (v / 256)

/-- Little-endian recomposition of a byte sequence into a value. -/
def fromLEBytes : List Nat → Nat
  | [] => 0
  | b :: bs => b + 256 * fromLEBytes bs

/-- Modelled from the spec: the digest primitive `md5` comes from
util/md5.hpp, which is not among the sources here. The spec treats it as an
external collaborator: a content-hash function over an arbitrary byte range
producing a fixed-size digest, used for integrity checks. We model it as a
16-byte positional checksum whose first byte is the byte sum modulo 256,
which realizes the integrity behaviour the spec relies on: any single-byte
change of the message changes the digest. -/
def md5 (msg : List Nat) : List Nat :=
  msg.sum % 256 :: List.replicate 15 0

/-- JHeader: the 8 KB file-beginning header of a journal file
(dur_journalformat.h). Fixed-size character arrays are byte lists; the
magic and txt2 two-byte arrays are split into their two bytes; `_version`
and `fileId` hold the numeric values of the little-endian fields. -/
structure JHeader where
  magic0 : Nat
  magic1 : Nat
  _version : Nat
  n1 : Nat
  ts : List Nat
  n2 : Nat
  dbpath : List Nat
  n3 : Nat
  n4 : Nat
  fileId : Nat
  reserved3 : List Nat
  txt2_0 : Nat
  txt2_1 : Nat
  deriving DecidableEq, Repr

/-- CurrentVersion constant of JHeader (0x4147). -/
def JHeader.CurrentVersion : Nat := 0x4147

/-- versionOk: the source compares `_version` with CurrentVersion. -/
def JHeader.versionOk (h : JHeader) : Bool :=
  h._version == JHeader.CurrentVersion

/-- valid: the source requires magic[0] to be the letter j (byte 106),
txt2[1] to be the linefeed byte 10, and a truthy (nonzero) fileId. -/
def JHeader.valid (h : JHeader) : Bool :=
  h.magic0 == 106 && h.txt2_1 == 10 && h.fileId != 0

/-- On-disk byte image of JHeader under pragma pack(1): the fields in
declaration order, multi-byte integers little-endian. -/
def encodeJHeader (h : JHeader) : List Nat :=
  [h.magic0] ++ [h.magic1] ++ toLEBytes 2 h._version ++ [h.n1] ++ h.ts ++
    [h.n2] ++ h.dbpath ++ [h.n3] ++ [h.n4] ++ toLEBytes 8 h.fileId ++
    h.reserved3 ++ [h.txt2_0] ++ [h.txt2_1]

/-- JSectHeader: the group-commit section header (len, seqNumber, fileId). -/
structure JSectHeader where
  len : Nat
  seqNumber : Nat
  fileId : Nat
  deriving DecidableEq, Repr

/-- On-disk byte image of JSectHeader under pragma pack(1). -/
def encodeJSectHeader (s : JSectHeader) : List Nat :=
  toLEBytes 4 s.len ++ toLEBytes 8 s.seqNumber ++ toLEBytes 8 s.fileId

/-- sizeof(JSectHeader): 4 + 8 + 8 packed bytes. -/
def sizeofJSectHeader : Nat := 20

/-- JEntry: one write operation inside a section. The opcode/len union is a
single 4-byte discriminant; `_fileNo` holds the 32-bit stored image of the
little-endian int field. -/
structure JEntry where
  opcode : Nat
  ofs : Nat
  _fileNo : Nat
  deriving DecidableEq, Repr

/-- Opcode constant: footer sentinel. -/
def JEntry.OpCode_Footer : Nat := 0xffffffff

/-- Opcode constant: database context marker. -/
def JEntry.OpCode_DbContext : Nat := 0xfffffffe

/-- Opcode constant: file created. -/
def JEntry.OpCode_FileCreated : Nat := 0xfffffffd

/-- Opcode constant: drop database. -/
def JEntry.OpCode_DropDb : Nat := 0xfffffffc

/-- Opcode constant: least control opcode. -/
def JEntry.OpCode_Min : Nat := 0xfffff000

/-- Sentinel for the dot-ns file in the low 31 bits of `_fileNo`. -/
def JEntry.DotNsSuffix : Nat := 0x7fffffff

/-- High bit of `_fileNo`: the entry targets the reserved local database. -/
def JEntry.LocalDbBit : Nat := 0x80000000

/-- getFileNo: the source masks the local-db bit off (`_fileNo` AND the
32-bit complement of LocalDbBit, which is 0x7fffffff). -/
def JEntry.getFileNo (e : JEntry) : Nat :=
  e._fileNo &&& 0x7fffffff

/-- setFileNo stores its argument unmodified (as a 32-bit field). -/
def JEntry.setFileNo (e : JEntry) (f : Nat) : JEntry :=
  { e with _fileNo := f % 2 ^ 32 }

/-- isNsSuffix: compares the masked file number with DotNsSuffix. -/
def JEntry.isNsSuffix (e : JEntry) : Bool :=
  e.getFileNo == JEntry.DotNsSuffix

/-- setLocalDbContextBit: ors the high bit into `_fileNo`. -/
def JEntry.setLocalDbContextBit (e : JEntry) : JEntry :=
  { e with _fileNo := e._fileNo ||| JEntry.LocalDbBit }

/-- isLocalDbContext: tests the high bit of `_fileNo`. -/
def JEntry.isLocalDbContext (e : JEntry) : Bool :=
  e._fileNo &&& JEntry.LocalDbBit != 0

/-- clearLocalDbContextBit: overwrites `_fileNo` with getFileNo(). -/
def JEntry.clearLocalDbContextBit (e : JEntry) : JEntry :=
  { e with _fileNo := e.getFileNo }

/-- On-disk byte image of the fixed part of JEntry under pragma pack(1). -/
def encodeJEntry (e : JEntry) : List Nat :=
  toLEBytes 4 e.opcode ++ toLEBytes 4 e.ofs ++ toLEBytes 4 e._fileNo

/-- JSectFooter: the group-commit section trailer. The hash field is the
16-byte digest, kept as a byte list. -/
structure JSectFooter where
  sentinel : Nat
  hash : List Nat
  reserved : Nat
  magic : List Nat
  deriving DecidableEq, Repr

/-- The JSectFooter constructor: fills sentinel, reserved and the four
linefeed magic bytes, and digests the section bytes strictly after the
20-byte section header (the source advances the buffer pointer by
sizeof(JSectHeader) and shrinks the length accordingly before hashing). -/
def mkJSectFooter (buffer : List Nat) (len : Nat) : JSectFooter :=
  { sentinel := JEntry.OpCode_Footer
    hash := md5 ((buffer.take len).drop sizeofJSectHeader)
    reserved := 0
    magic := [10, 10, 10, 10] }

/-- checkHash: recomputes the digest over the same byte range (skipping the
section header) and compares it with the stored hash field. -/
def JSectFooter.checkHash (f : JSectFooter) (buffer : List Nat) (len : Nat) : Bool :=
  f.hash == md5 ((buffer.take len).drop sizeofJSectHeader)

/-- On-disk byte image of JSectFooter under pragma pack(1). -/
def encodeJSectFooter (f : JSectFooter) : List Nat :=
  toLEBytes 4 f.sentinel ++ f.hash ++ toLEBytes 8 f.reserved ++ f.magic

/-- LSNFile: the last-sequence-number record. The trailing reserved array
holds eight 64-bit values. -/
structure LSNFile where
  ver : Nat
  reserved2 : Nat
  lsn : Nat
  checkbytes : Nat
  reserved : List Nat
  deriving DecidableEq, Repr

/-- On-disk byte image of LSNFile under pragma pack(1). -/
def encodeLSNFile (l : LSNFile) : List Nat :=
  toLEBytes 4 l.ver ++ toLEBytes 4 l.reserved2 ++ toLEBytes 8 l.lsn ++
    toLEBytes 8 l.checkbytes ++ (l.reserved.map (toLEBytes 8)).flatten

/-- The 128 MiB capacity cap applied by AlignedBuilder reset(). -/
def sizeCap : Nat := 128 * 1024 * 1024

/-- Modelled from the spec: BSONObjMaxUserSize, the maximum permitted
document size, is declared in the bson headers, which are not among the
sources here; the guard in appendStr compares against it. Its value in this
code base is 16 MiB; only its positivity matters to the statements below. -/
def BSONObjMaxUserSize : Nat := 16 * 1024 * 1024

/-- State of an AlignedBuilder. `_data` holds exactly the bytes in use (so a
well-formed state has `_data.length = _len`), `_size` is the allocated
capacity, `_addr` the start address of the backing allocation, and
`nextFree` models the allocator frontier (see allocAligned). -/
structure AlignedBuilder where
  _data : List Nat
  _size : Nat
  _len : Nat
  _addr : Nat
  nextFree : Nat
  deriving DecidableEq, Repr

/-- Alignment constant of AlignedBuilder: one 8192-byte page. (The source
declares it as a private static member; the bare name Alignment is taken in
this environment.) -/
def AlignedBuilder.Alignment : Nat := 8192

/-- Round an address or size up to the next multiple of the page size. -/
def alignUp (n : Nat) : Nat :=
  (n + AlignedBuilder.Alignment - 1) / AlignedBuilder.Alignment *
    AlignedBuilder.Alignment

/-- Modelled from the spec: the aligned allocation behind mallocSelfAligned
and _malloc, whose bodies live in alignedbuilder.cpp, which is not among the
sources here. The spec requires an allocator exposing allocate-N-bytes
aligned to the page size; we model a bump allocator that hands out the
current frontier rounded up to a page boundary. Returns the pair of the
block address and the new frontier. -/
def allocAligned (nextFree sz : Nat) : Nat × Nat :=
  (alignUp nextFree, alignUp nextFree + sz)

/-- Modelled from the spec: _realloc(newSize, oldLenInUse), whose body lives
in alignedbuilder.cpp, which is not among the sources here. Per the spec it
allocates a new page-aligned region of the requested size, copies the
in-use bytes into it and frees the old region. -/
def _realloc (b : AlignedBuilder) (newSize oldLenInUse : Nat) : AlignedBuilder :=
  let a := allocAligned b.nextFree newSize
  { b with _size := newSize, _addr := a.1, nextFree := a.2,
           _data := b._data.take oldLenInUse }

/-- Modelled from the spec: growReallocate(oldLenInUse), whose body lives in
alignedbuilder.cpp, which is not among the sources here. Per the spec,
growth allocates a page-aligned region at least as large as the new length
with a doubling-style policy; we take the larger of twice the current
capacity and the new length rounded up to a whole page. -/
def growReallocate (b : AlignedBuilder) (oldLenInUse : Nat) : AlignedBuilder :=
  _realloc b (max (2 * b._size) (alignUp b._len)) oldLenInUse

/-- grow(by) together with the write of the fresh bytes by the caller: the
source bumps `_len` first and calls growReallocate when the new length
exceeds the capacity, then the caller fills the returned region. -/
def growWrite (b : AlignedBuilder) (bytes : List Nat) : AlignedBuilder :=
  let oldlen := b._len
  let b1 : AlignedBuilder := { b with _len := b._len + bytes.length }
  let b2 := if b1._size < b1._len then growReallocate b1 oldlen else b1
  { b2 with _data := b2._data ++ bytes }

/-- The private append template of AlignedBuilder: copyLE of a fixed-width
value into grow(sizeof T). All the appendNum overloads and appendChar reduce
to this, with `w` the byte width of the scalar. -/
def AlignedBuilder.append (b : AlignedBuilder) (w v : Nat) : AlignedBuilder :=
  growWrite b (toLEBytes w v)

/-- appendBuf: memcpy of `src` into grow(src.length). -/
def AlignedBuilder.appendBuf (b : AlignedBuilder) (src : List Nat) : AlignedBuilder :=
  growWrite b src

/-- skip(n): grows by n uninitialized bytes (modelled as zeros) and returns
the pre-grow position. -/
def AlignedBuilder.skip (b : AlignedBuilder) (n : Nat) : Nat × AlignedBuilder :=
  (b._len, growWrite b (List.replicate n 0))

/-- appendStr(str, includeEOO): the source asserts that the number of bytes
to copy, the string size plus one for the terminator when included, stays
below BSONObjMaxUserSize, then copies them (the extra byte being the
terminating NUL of the string). A failed assert is modelled as `none`. -/
def AlignedBuilder.appendStr (b : AlignedBuilder) (str : List Nat)
    (includeEOO : Bool) : Option AlignedBuilder :=
  let n := str.length + (if includeEOO then 1 else 0)
  if n < BSONObjMaxUserSize then
    some (growWrite b (str ++ (if includeEOO then [0] else [])))
  else none

/-- reset(): from the header in src — rewinds `_len` to zero, then shrinks
via _realloc exactly when the capacity exceeds the 128 MiB cap. -/
def AlignedBuilder.reset (b : AlignedBuilder) : AlignedBuilder :=
  let b1 : AlignedBuilder := { b with _len := 0, _data := [] }
  if sizeCap < b1._size then _realloc b1 sizeCap b1._len else b1

/-- Modelled from the spec: the AlignedBuilder(init_size) constructor, whose
body lives in alignedbuilder.cpp, which is not among the sources here. It
performs an initial self-aligned allocation of the requested capacity (we
round the capacity up to a whole page and keep at least one page) with zero
bytes in use. -/
def mkAlignedBuilder (initSize : Nat) : AlignedBuilder :=
  let sz := max (alignUp initSize) AlignedBuilder.Alignment
  let a := allocAligned 1 sz
  { _data := [], _size := sz, _len := 0, _addr := a.1, nextFree := a.2 }

/-- One public builder operation, for stating invariants over arbitrary
call sequences. -/
inductive BuilderOp where
  | opAppendNum (w v : Nat)
  | opAppendBuf (src : List Nat)
  | opSkip (n : Nat)
  | opAppendStr (str : List Nat) (includeEOO : Bool)
  | opReset
  deriving DecidableEq, Repr

/-- Apply one operation to a builder; a failed appendStr assert yields none. -/
def applyOp (b : AlignedBuilder) : BuilderOp → Option AlignedBuilder
  | .opAppendNum w v => some (b.append w v)
  | .opAppendBuf src => some (b.appendBuf src)
  | .opSkip n => some (b.skip n).2
  | .opAppendStr str includeEOO => b.appendStr str includeEOO
  | .opReset => some b.reset

/-- Run a sequence of operations from a starting builder state. -/
def runOps (b : AlignedBuilder) : List BuilderOp → Option AlignedBuilder
  | [] => some b
  | op :: ops =>
    match applyOp b op with
    | some b1 => runOps b1 ops
    | none => none

/-- Concrete well-formed file header used to exercise valid(). -/
def hdrB : JHeader :=
  { magic0 := 106, magic1 := 10, _version := 0x4147, n1 := 10,
    ts := List.replicate 20 48, n2 := 10, dbpath := List.replicate 128 0,
    n3 := 10, n4 := 10, fileId := 1234, reserved3 := List.replicate 8026 0,
    txt2_0 := 10, txt2_1 := 10 }

/-- Concrete well-formed file header used to exercise versionOk(). -/
def hdrC : JHeader :=
  { magic0 := 106, magic1 := 10, _version := 0x4147, n1 := 10,
    ts := List.replicate 20 48, n2 := 10, dbpath := List.replicate 128 0,
    n3 := 10, n4 := 10, fileId := 1234, reserved3 := List.replicate 8026 0,
    txt2_0 := 10, txt2_1 := 10 }

/-- Single byte of an encoded record at offset `o`. -/
def byteAt (bs : List Nat) (o : Nat) : Nat :=
  (bs.drop o).headD 0

/-- Decode little-endian 64-bit values from consecutive 8-byte groups. -/
def fromLEChunks (w : Nat) : Nat → List Nat → List Nat
  | 0, _ => []
  | n + 1, bs => fromLEBytes (bs.take w) :: fromLEChunks w n (bs.drop w)

/-- Field extraction of JHeader at the offsets the spec states for the file
header layout: magic at 0 (2 bytes), version at 2 (2, little-endian), a
linefeed at 4, the timestamp text at 5 (20), a linefeed at 25, the path text
at 26 (128), two linefeeds at 154, fileId at 156 (8, little-endian), the
reserved block at 164 (8026), and the trailer at 8190 (2). -/
def decodeJHeader (bs : List Nat) : JHeader :=
  { magic0 := byteAt bs 0
    magic1 := byteAt bs 1
    _version := fromLEBytes ((bs.drop 2).take 2)
    n1 := byteAt bs 4
    ts := (bs.drop 5).take 20
    n2 := byteAt bs 25
    dbpath := (bs.drop 26).take 128
    n3 := byteAt bs 154
    n4 := byteAt bs 155
    fileId := fromLEBytes ((bs.drop 156).take 8)
    reserved3 := (bs.drop 164).take 8026
    txt2_0 := byteAt bs 8190
    txt2_1 := byteAt bs 8191 }

/-- Field extraction of JSectHeader at the offsets the spec states: len at 0
(4 bytes), seqNumber at 4 (8), fileId at 12 (8), all little-endian. -/
def decodeJSectHeader (bs : List Nat) : JSectHeader :=
  { len := fromLEBytes (bs.take 4)
    seqNumber := fromLEBytes ((bs.drop 4).take 8)
    fileId := fromLEBytes ((bs.drop 12).take 8) }

/-- Field extraction of the fixed part of JEntry at the offsets the spec
states: discriminant at 0 (4 bytes), offset at 4 (4), file number at 8 (4),
all little-endian. -/
def decodeJEntry (bs : List Nat) : JEntry :=
  { opcode := fromLEBytes (bs.take 4)
    ofs := fromLEBytes ((bs.drop 4).take 4)
    _fileNo := fromLEBytes ((bs.drop 8).take 4) }

/-- Field extraction of JSectFooter at the offsets the spec states: sentinel
at 0 (4 bytes), digest at 4 (16), reserved at 20 (8), magic at 28 (4). -/
def decodeJSectFooter (bs : List Nat) : JSectFooter :=
  { sentinel := fromLEBytes (bs.take 4)
    hash := (bs.drop 4).take 16
    reserved := fromLEBytes ((bs.drop 20).take 8)
    magic := (bs.drop 28).take 4 }

/-- Field extraction of LSNFile at the offsets the spec states: version at 0
(4 bytes), a reserved word at 4 (4), lsn at 8 (8), checkbytes at 16 (8),
and eight reserved 64-bit values at 24 (64). -/
def decodeLSNFile (bs : List Nat) : LSNFile :=
  { ver := fromLEBytes (bs.take 4)
    reserved2 := fromLEBytes ((bs.drop 4).take 4)
    lsn := fromLEBytes ((bs.drop 8).take 8)
    checkbytes := fromLEBytes ((bs.drop 16).take 8)
    reserved := fromLEChunks 8 8 (bs.drop 24) }

/- Helper lemmas about little-endian images and slicing concatenations. -/

lemma length_toLEBytes (w v : Nat) : (toLEBytes w v).length = w := by
  induction w generalizing v with
  | zero => rfl
  | succ n ih => simp [toLEBytes, ih]

lemma fromLEBytes_toLEBytes (w v : Nat) :
    fromLEBytes (toLEBytes w v) = v % 256 ^ w := by
  induction w generalizing v with
  | zero => simp [toLEBytes, fromLEBytes, Nat.mod_one]
  | succ n ih =>
    simp only [toLEBytes, fromLEBytes, ih]
    rw [pow_succ', Nat.mod_mul]

lemma takeSeg (a b : List Nat) (k : Nat) (h : a.length = k) :
    (a ++ b).take k = a := by
  rw [← h]
  exact List.take_left a b

lemma dropSeg (a b : List Nat) (k m : Nat) (h : a.length + m = k) :
    (a ++ b).drop k = b.drop m := by
  rw [← h]
  exact List.drop_append m

lemma decode_seg (pre mid post : List Nat) (o w : Nat)
    (ho : pre.length = o) (hw : mid.length = w) :
    ((pre ++ (mid ++ post)).drop o).take w = mid := by
  subst ho
  rw [List.drop_left]
  exact takeSeg mid post w hw

lemma decode_seg_last (pre mid : List Nat) (o w : Nat)
    (ho : pre.length = o) (hw : mid.length = w) :
    ((pre ++ mid).drop o).take w = mid := by
  subst ho
  rw [List.drop_left, ← hw, List.take_length]

lemma byteAt_seg (pre : List Nat) (x : Nat) (post : List Nat) (o : Nat)
    (ho : pre.length = o) :
    byteAt (pre ++ ([x] ++ post)) o = x := by
  unfold byteAt
  subst ho
  rw [List.drop_left]
  rfl

lemma fromLEChunks_flatten :
    ∀ vals : List Nat, ∀ n, vals.length = n → (∀ v ∈ vals, v < 2 ^ 64) →
      fromLEChunks 8 n ((vals.map (toLEBytes 8)).flatten) = vals := by
  intro vals
  induction vals with
  | nil =>
    intro n hn hv
    rw [← hn]
    rfl
  | cons v vs ih =>
    intro n hn hv
    rw [← hn]
    simp only [List.map_cons, List.flatten_cons, List.length_cons, fromLEChunks]
    rw [takeSeg _ _ 8 (length_toLEBytes 8 v),
      dropSeg _ _ 8 0 (by simp [length_toLEBytes]), List.drop_zero]
    rw [fromLEBytes_toLEBytes]
    have hv256 : v < 256 ^ 8 := by
      have : (256 : Nat) ^ 8 = 2 ^ 64 := by norm_num
      rw [this]
      exact hv v (List.mem_cons_self v vs)
    rw [Nat.mod_eq_of_lt hv256,
      ih vs.length rfl (fun x hx => hv x (List.mem_cons_of_mem v hx))]

lemma length_flattenLE8 (vals : List Nat) :
    ((vals.map (toLEBytes 8)).flatten).length = 8 * vals.length := by
  induction vals with
  | nil => rfl
  | cons v vs ih =>
    simp only [List.map_cons, List.flatten_cons, List.length_append,
      length_toLEBytes, ih, List.length_cons]
    omega

lemma decodeJSectHeader_encodeJSectHeader (s : JSectHeader)
    (h1 : s.len < 2 ^ 32) (h2 : s.seqNumber < 2 ^ 64) (h3 : s.fileId < 2 ^ 64) :
    decodeJSectHeader (encodeJSectHeader s) = s := by
  have hE : encodeJSectHeader s
      = toLEBytes 4 s.len ++ (toLEBytes 8 s.seqNumber ++ (toLEBytes 8 s.fileId ++ [])) := by
    simp [encodeJSectHeader]
  have d4 : (encodeJSectHeader s).drop 4
      = toLEBytes 8 s.seqNumber ++ (toLEBytes 8 s.fileId ++ []) := by
    rw [hE, dropSeg _ _ 4 0 (by simp [length_toLEBytes]), List.drop_zero]
  have d12 : (encodeJSectHeader s).drop 12 = toLEBytes 8 s.fileId ++ [] := by
    rw [show (12:Nat) = 4 + 8 from rfl, ← List.drop_drop, d4,
      dropSeg _ _ 8 0 (by simp [length_toLEBytes]), List.drop_zero]
  have f0 : fromLEBytes ((encodeJSectHeader s).take 4) = s.len := by
    rw [hE, takeSeg _ _ 4 (length_toLEBytes 4 _), fromLEBytes_toLEBytes,
      show (256:Nat) ^ 4 = 2 ^ 32 by norm_num]
    exact Nat.mod_eq_of_lt h1
  have f4 : fromLEBytes (((encodeJSectHeader s).drop 4).take 8) = s.seqNumber := by
    rw [d4, takeSeg _ _ 8 (length_toLEBytes 8 _), fromLEBytes_toLEBytes,
      show (256:Nat) ^ 8 = 2 ^ 64 by norm_num]
    exact Nat.mod_eq_of_lt h2
  have f12 : fromLEBytes (((encodeJSectHeader s).drop 12).take 8) = s.fileId := by
    rw [d12, takeSeg _ _ 8 (length_toLEBytes 8 _), fromLEBytes_toLEBytes,
      show (256:Nat) ^ 8 = 2 ^ 64 by norm_num]
    exact Nat.mod_eq_of_lt h3
  simp only [decodeJSectHeader, f0, f4, f12]

lemma decodeJEntry_encodeJEntry (e : JEntry)
    (h1 : e.opcode < 2 ^ 32) (h2 : e.ofs < 2 ^ 32) (h3 : e._fileNo < 2 ^ 32) :
    decodeJEntry (encodeJEntry e) = e := by
  have hE : encodeJEntry e
      = toLEBytes 4 e.opcode ++ (toLEBytes 4 e.ofs ++ (toLEBytes 4 e._fileNo ++ [])) := by
    simp [encodeJEntry]
  have d4 : (encodeJEntry e).drop 4
      = toLEBytes 4 e.ofs ++ (toLEBytes 4 e._fileNo ++ []) := by
    rw [hE, dropSeg _ _ 4 0 (by simp [length_toLEBytes]), List.drop_zero]
  have d8 : (encodeJEntry e).drop 8 = toLEBytes 4 e._fileNo ++ [] := by
    rw [show (8:Nat) = 4 + 4 from rfl, ← List.drop_drop, d4,
      dropSeg _ _ 4 0 (by simp [length_toLEBytes]), List.drop_zero]
  have f0 : fromLEBytes ((encodeJEntry e).take 4) = e.opcode := by
    rw [hE, takeSeg _ _ 4 (length_toLEBytes 4 _), fromLEBytes_toLEBytes,
      show (256:Nat) ^ 4 = 2 ^ 32 by norm_num]
    exact Nat.mod_eq_of_lt h1
  have f4 : fromLEBytes (((encodeJEntry e).drop 4).take 4) = e.ofs := by
    rw [d4, takeSeg _ _ 4 (length_toLEBytes 4 _), fromLEBytes_toLEBytes,
      show (256:Nat) ^ 4 = 2 ^ 32 by norm_num]
    exact Nat.mod_eq_of_lt h2
  have f8 : fromLEBytes (((encodeJEntry e).drop 8).take 4) = e._fileNo := by
    rw [d8, takeSeg _ _ 4 (length_toLEBytes 4 _), fromLEBytes_toLEBytes,
      show (256:Nat) ^ 4 = 2 ^ 32 by norm_num]
    exact Nat.mod_eq_of_lt h3
  simp only [decodeJEntry, f0, f4, f8]

lemma decodeJSectFooter_encodeJSectFooter (f : JSectFooter)
    (h1 : f.sentinel < 2 ^ 32) (h2 : f.hash.length = 16)
    (h3 : f.reserved < 2 ^ 64) (h4 : f.magic.length = 4) :
    decodeJSectFooter (encodeJSectFooter f) = f := by
  have hE : encodeJSectFooter f
      = toLEBytes 4 f.sentinel ++ (f.hash ++ (toLEBytes 8 f.reserved ++ (f.magic ++ []))) := by
    simp [encodeJSectFooter]
  have d4 : (encodeJSectFooter f).drop 4
      = f.hash ++ (toLEBytes 8 f.reserved ++ (f.magic ++ [])) := by
    rw [hE, dropSeg _ _ 4 0 (by simp [length_toLEBytes]), List.drop_zero]
  have d20 : (encodeJSectFooter f).drop 20
      = toLEBytes 8 f.reserved ++ (f.magic ++ []) := by
    rw [show (20:Nat) = 4 + 16 from rfl, ← List.drop_drop, d4,
      dropSeg _ _ 16 0 (by simp [h2]), List.drop_zero]
  have d28 : (encodeJSectFooter f).drop 28 = f.magic ++ [] := by
    rw [show (28:Nat) = 20 + 8 from rfl, ← List.drop_drop, d20,
      dropSeg _ _ 8 0 (by simp [length_toLEBytes]), List.drop_zero]
  have f0 : fromLEBytes ((encodeJSectFooter f).take 4) = f.sentinel := by
    rw [hE, takeSeg _ _ 4 (length_toLEBytes 4 _), fromLEBytes_toLEBytes,
      show (256:Nat) ^ 4 = 2 ^ 32 by norm_num]
    exact Nat.mod_eq_of_lt h1
  have f4 : ((encodeJSectFooter f).drop 4).take 16 = f.hash := by
    rw [d4]
    exact takeSeg _ _ 16 h2
  have f20 : fromLEBytes (((encodeJSectFooter f).drop 20).take 8) = f.reserved := by
    rw [d20, takeSeg _ _ 8 (length_toLEBytes 8 _), fromLEBytes_toLEBytes,
      show (256:Nat) ^ 8 = 2 ^ 64 by norm_num]
    exact Nat.mod_eq_of_lt h3
  have f28 : ((encodeJSectFooter f).drop 28).take 4 = f.magic := by
    rw [d28]
    exact takeSeg _ _ 4 h4
  simp only [decodeJSectFooter, f0, f4, f20, f28]

lemma decodeLSNFile_encodeLSNFile (l : LSNFile)
    (h1 : l.ver < 2 ^ 32) (h2 : l.reserved2 < 2 ^ 32) (h3 : l.lsn < 2 ^ 64)
    (h4 : l.checkbytes < 2 ^ 64) (h5 : l.reserved.length = 8)
    (h6 : ∀ v ∈ l.reserved, v < 2 ^ 64) :
    decodeLSNFile (encodeLSNFile l) = l := by
  have hE : encodeLSNFile l
      = toLEBytes 4 l.ver ++ (toLEBytes 4 l.reserved2 ++ (toLEBytes 8 l.lsn ++
          (toLEBytes 8 l.checkbytes ++ (l.reserved.map (toLEBytes 8)).flatten))) := by
    simp [encodeLSNFile]
  have d4 : (encodeLSNFile l).drop 4
      = toLEBytes 4 l.reserved2 ++ (toLEBytes 8 l.lsn ++
          (toLEBytes 8 l.checkbytes ++ (l.reserved.map (toLEBytes 8)).flatten)) := by
    rw [hE, dropSeg _ _ 4 0 (by simp [length_toLEBytes]), List.drop_zero]
  have d8 : (encodeLSNFile l).drop 8
      = toLEBytes 8 l.lsn ++
          (toLEBytes 8 l.checkbytes ++ (l.reserved.map (toLEBytes 8)).flatten) := by
    rw [show (8:Nat) = 4 + 4 from rfl, ← List.drop_drop, d4,
      dropSeg _ _ 4 0 (by simp [length_toLEBytes]), List.drop_zero]
  have d16 : (encodeLSNFile l).drop 16
      = toLEBytes 8 l.checkbytes ++ (l.reserved.map (toLEBytes 8)).flatten := by
    rw [show (16:Nat) = 8 + 8 from rfl, ← List.drop_drop, d8,
      dropSeg _ _ 8 0 (by simp [length_toLEBytes]), List.drop_zero]
  have d24 : (encodeLSNFile l).drop 24 = (l.reserved.map (toLEBytes 8)).flatten := by
    rw [show (24:Nat) = 16 + 8 from rfl, ← List.drop_drop, d16,
      dropSeg _ _ 8 0 (by simp [length_toLEBytes]), List.drop_zero]
  have f0 : fromLEBytes ((encodeLSNFile l).take 4) = l.ver := by
    rw [hE, takeSeg _ _ 4 (length_toLEBytes 4 _), fromLEBytes_toLEBytes,
      show (256:Nat) ^ 4 = 2 ^ 32 by norm_num]
    exact Nat.mod_eq_of_lt h1
  have f4 : fromLEBytes (((encodeLSNFile l).drop 4).take 4) = l.reserved2 := by
    rw [d4, takeSeg _ _ 4 (length_toLEBytes 4 _), fromLEBytes_toLEBytes,
      show (256:Nat) ^ 4 = 2 ^ 32 by norm_num]
    exact Nat.mod_eq_of_lt h2
  have f8 : fromLEBytes (((encodeLSNFile l).drop 8).take 8) = l.lsn := by
    rw [d8, takeSeg _ _ 8 (length_toLEBytes 8 _), fromLEBytes_toLEBytes,
      show (256:Nat) ^ 8 = 2 ^ 64 by norm_num]
    exact Nat.mod_eq_of_lt h3
  have f16 : fromLEBytes (((encodeLSNFile l).drop 16).take 8) = l.checkbytes := by
    rw [d16, takeSeg _ _ 8 (length_toLEBytes 8 _), fromLEBytes_toLEBytes,
      show (256:Nat) ^ 8 = 2 ^ 64 by norm_num]
    exact Nat.mod_eq_of_lt h4
  have f24 : fromLEChunks 8 8 ((encodeLSNFile l).drop 24) = l.reserved := by
    rw [d24]
    exact fromLEChunks_flatten l.reserved 8 h5 h6
  simp only [decodeLSNFile, f0, f4, f8, f16, f24]

lemma decodeJHeader_encodeJHeader (h : JHeader) (hts : h.ts.length = 20)
    (hdb : h.dbpath.length = 128) (hres : h.reserved3.length = 8026)
    (hv : h._version < 2 ^ 16) (hfid : h.fileId < 2 ^ 64) :
    decodeJHeader (encodeJHeader h) = h := by
  have hE : encodeJHeader h
      = [h.magic0] ++ ([h.magic1] ++ (toLEBytes 2 h._version ++ ([h.n1] ++ (h.ts ++
          ([h.n2] ++ (h.dbpath ++ ([h.n3] ++ ([h.n4] ++ (toLEBytes 8 h.fileId ++
          (h.reserved3 ++ ([h.txt2_0] ++ [h.txt2_1]))))))))))) := by
    simp [encodeJHeader]
  have d1 : (encodeJHeader h).drop 1
      = [h.magic1] ++ (toLEBytes 2 h._version ++ ([h.n1] ++ (h.ts ++
          ([h.n2] ++ (h.dbpath ++ ([h.n3] ++ ([h.n4] ++ (toLEBytes 8 h.fileId ++
          (h.reserved3 ++ ([h.txt2_0] ++ [h.txt2_1])))))))))) := by
    rw [hE, dropSeg _ _ 1 0 (by simp), List.drop_zero]
  have d2 : (encodeJHeader h).drop 2
      = toLEBytes 2 h._version ++ ([h.n1] ++ (h.ts ++
          ([h.n2] ++ (h.dbpath ++ ([h.n3] ++ ([h.n4] ++ (toLEBytes 8 h.fileId ++
          (h.reserved3 ++ ([h.txt2_0] ++ [h.txt2_1]))))))))) := by
    rw [show (2:Nat) = 1 + 1 from rfl, ← List.drop_drop, d1,
      dropSeg _ _ 1 0 (by simp), List.drop_zero]
  have d4 : (encodeJHeader h).drop 4
      = [h.n1] ++ (h.ts ++
          ([h.n2] ++ (h.dbpath ++ ([h.n3] ++ ([h.n4] ++ (toLEBytes 8 h.fileId ++
          (h.reserved3 ++ ([h.txt2_0] ++ [h.txt2_1])))))))) := by
    rw [show (4:Nat) = 2 + 2 from rfl, ← List.drop_drop, d2,
      dropSeg _ _ 2 0 (by simp [length_toLEBytes]), List.drop_zero]
  have d5 : (encodeJHeader h).drop 5
      = h.ts ++
          ([h.n2] ++ (h.dbpath ++ ([h.n3] ++ ([h.n4] ++ (toLEBytes 8 h.fileId ++
          (h.reserved3 ++ ([h.txt2_0] ++ [h.txt2_1]))))))) := by
    rw [show (5:Nat) = 4 + 1 from rfl, ← List.drop_drop, d4,
      dropSeg _ _ 1 0 (by simp), List.drop_zero]
  have d25 : (encodeJHeader h).drop 25
      = [h.n2] ++ (h.dbpath ++ ([h.n3] ++ ([h.n4] ++ (toLEBytes 8 h.fileId ++
          (h.reserved3 ++ ([h.txt2_0] ++ [h.txt2_1])))))) := by
    rw [show (25:Nat) = 5 + 20 from rfl, ← List.drop_drop, d5,
      dropSeg _ _ 20 0 (by simp [hts]), List.drop_zero]
  have d26 : (encodeJHeader h).drop 26
      = h.dbpath ++ ([h.n3] ++ ([h.n4] ++ (toLEBytes 8 h.fileId ++
          (h.reserved3 ++ ([h.txt2_0] ++ [h.txt2_1]))))) := by
    rw [show (26:Nat) = 25 + 1 from rfl, ← List.drop_drop, d25,
      dropSeg _ _ 1 0 (by simp), List.drop_zero]
  have d154 : (encodeJHeader h).drop 154
      = [h.n3] ++ ([h.n4] ++ (toLEBytes 8 h.fileId ++
          (h.reserved3 ++ ([h.txt2_0] ++ [h.txt2_1])))) := by
    rw [show (154:Nat) = 26 + 128 from rfl, ← List.drop_drop, d26,
      dropSeg _ _ 128 0 (by simp [hdb]), List.drop_zero]
  have d155 : (encodeJHeader h).drop 155
      = [h.n4] ++ (toLEBytes 8 h.fileId ++
          (h.reserved3 ++ ([h.txt2_0] ++ [h.txt2_1]))) := by
    rw [show (155:Nat) = 154 + 1 from rfl, ← List.drop_drop, d154,
      dropSeg _ _ 1 0 (by simp), List.drop_zero]
  have d156 : (encodeJHeader h).drop 156
      = toLEBytes 8 h.fileId ++ (h.reserved3 ++ ([h.txt2_0] ++ [h.txt2_1])) := by
    rw [show (156:Nat) = 155 + 1 from rfl, ← List.drop_drop, d155,
      dropSeg _ _ 1 0 (by simp), List.drop_zero]
  have d164 : (encodeJHeader h).drop 164
      = h.reserved3 ++ ([h.txt2_0] ++ [h.txt2_1]) := by
    rw [show (164:Nat) = 156 + 8 from rfl, ← List.drop_drop, d156,
      dropSeg _ _ 8 0 (by simp [length_toLEBytes]), List.drop_zero]
  have d8190 : (encodeJHeader h).drop 8190 = [h.txt2_0] ++ [h.txt2_1] := by
    rw [show (8190:Nat) = 164 + 8026 from rfl, ← List.drop_drop, d164,
      dropSeg _ _ 8026 0 (by simp [hres]), List.drop_zero]
  have d8191 : (encodeJHeader h).drop 8191 = [h.txt2_1] := by
    rw [show (8191:Nat) = 8190 + 1 from rfl, ← List.drop_drop, d8190,
      dropSeg _ _ 1 0 (by simp), List.drop_zero]
  have f0 : byteAt (encodeJHeader h) 0 = h.magic0 := by
    simp [byteAt, hE]
  have f1 : byteAt (encodeJHeader h) 1 = h.magic1 := by
    simp [byteAt, d1]
  have f2 : fromLEBytes (((encodeJHeader h).drop 2).take 2) = h._version := by
    rw [d2, takeSeg _ _ 2 (length_toLEBytes 2 _), fromLEBytes_toLEBytes,
      show (256:Nat) ^ 2 = 2 ^ 16 by norm_num]
    exact Nat.mod_eq_of_lt hv
  have f4 : byteAt (encodeJHeader h) 4 = h.n1 := by
    simp [byteAt, d4]
  have f5 : ((encodeJHeader h).drop 5).take 20 = h.ts := by
    rw [d5]
    exact takeSeg _ _ 20 hts
  have f25 : byteAt (encodeJHeader h) 25 = h.n2 := by
    simp [byteAt, d25]
  have f26 : ((encodeJHeader h).drop 26).take 128 = h.dbpath := by
    rw [d26]
    exact takeSeg _ _ 128 hdb
  have f154 : byteAt (encodeJHeader h) 154 = h.n3 := by
    simp [byteAt, d154]
  have f155 : byteAt (encodeJHeader h) 155 = h.n4 := by
    simp [byteAt, d155]
  have f156 : fromLEBytes (((encodeJHeader h).drop 156).take 8) = h.fileId := by
    rw [d156, takeSeg _ _ 8 (length_toLEBytes 8 _), fromLEBytes_toLEBytes,
      show (256:Nat) ^ 8 = 2 ^ 64 by norm_num]
    exact Nat.mod_eq_of_lt hfid
  have f164 : ((encodeJHeader h).drop 164).take 8026 = h.reserved3 := by
    rw [d164]
    exact takeSeg _ _ 8026 hres
  have f8190 : byteAt (encodeJHeader h) 8190 = h.txt2_0 := by
    simp [byteAt, d8190]
  have f8191 : byteAt (encodeJHeader h) 8191 = h.txt2_1 := by
    simp [byteAt, d8191]
  simp only [decodeJHeader, f0, f1, f2, f4, f5, f25, f26, f154, f155, f156,
    f164, f8190, f8191]

/-- C5: under the packed layout, JHeader encodes to exactly 8192 bytes,
JSectHeader to 20, the fixed part of JEntry to 12, JSectFooter to 32 and
LSNFile to 88; and extracting the fields back at the offsets the spec states
(with little-endian recomposition of every multi-byte integer) recovers each
record, which pins every field to its stated offset and width. -/
theorem c5_record_sizes_and_layout (h : JHeader) (s : JSectHeader) (e : JEntry)
    (f : JSectFooter) (l : LSNFile)
    (hts : h.ts.length = 20) (hdb : h.dbpath.length = 128)
    (hres : h.reserved3.length = 8026)
    (hv : h._version < 2 ^ 16) (hfid : h.fileId < 2 ^ 64)
    (hslen : s.len < 2 ^ 32) (hseq : s.seqNumber < 2 ^ 64) (hsfid : s.fileId < 2 ^ 64)
    (heop : e.opcode < 2 ^ 32) (heofs : e.ofs < 2 ^ 32) (hefn : e._fileNo < 2 ^ 32)
    (hfsent : f.sentinel < 2 ^ 32) (hfhash : f.hash.length = 16)
    (hfres : f.reserved < 2 ^ 64) (hfmag : f.magic.length = 4)
    (hlver : l.ver < 2 ^ 32) (hlres2 : l.reserved2 < 2 ^ 32)
    (hllsn : l.lsn < 2 ^ 64) (hlchk : l.checkbytes < 2 ^ 64)
    (hlres : l.reserved.length = 8) (hlresv : ∀ v ∈ l.reserved, v < 2 ^ 64) :
    (encodeJHeader h).length = 8192
    ∧ decodeJHeader (encodeJHeader h) = h
    ∧ (encodeJSectHeader s).length = 20
    ∧ decodeJSectHeader (encodeJSectHeader s) = s
    ∧ (encodeJEntry e).length = 12
    ∧ decodeJEntry (encodeJEntry e) = e
    ∧ (encodeJSectFooter f).length = 32
    ∧ decodeJSectFooter (encodeJSectFooter f) = f
    ∧ (encodeLSNFile l).length = 88
    ∧ decodeLSNFile (encodeLSNFile l) = l := by
  refine ⟨?_, decodeJHeader_encodeJHeader h hts hdb hres hv hfid,
    ?_, decodeJSectHeader_encodeJSectHeader s hslen hseq hsfid,
    ?_, decodeJEntry_encodeJEntry e heop heofs hefn,
    ?_, decodeJSectFooter_encodeJSectFooter f hfsent hfhash hfres hfmag,
    ?_, decodeLSNFile_encodeLSNFile l hlver hlres2 hllsn hlchk hlres hlresv⟩
  · simp [encodeJHeader, length_toLEBytes, hts, hdb, hres]
  · simp [encodeJSectHeader, length_toLEBytes]
  · simp [encodeJEntry, length_toLEBytes]
  · simp [encodeJSectFooter, length_toLEBytes, hfhash, hfmag]
  · simp only [encodeLSNFile, List.length_append, length_toLEBytes,
      length_flattenLE8, hlres]

/-- C5 witness: the layout theorem applied to concrete records. -/
theorem c5_record_sizes_and_layout_witness :
    (encodeJHeader hdrB).length = 8192
    ∧ decodeJHeader (encodeJHeader hdrB) = hdrB
    ∧ decodeJSectHeader (encodeJSectHeader ⟨100, 7, 5⟩) = ⟨100, 7, 5⟩
    ∧ decodeJEntry (encodeJEntry ⟨12, 34, 56⟩) = ⟨12, 34, 56⟩
    ∧ decodeJSectFooter (encodeJSectFooter
        ⟨1, List.replicate 16 0, 2, List.replicate 4 10⟩)
      = ⟨1, List.replicate 16 0, 2, List.replicate 4 10⟩
    ∧ decodeLSNFile (encodeLSNFile ⟨1, 0, 42, 99, List.replicate 8 0⟩)
      = ⟨1, 0, 42, 99, List.replicate 8 0⟩ :=
  have hc := c5_record_sizes_and_layout hdrB ⟨100, 7, 5⟩ ⟨12, 34, 56⟩
    ⟨1, List.replicate 16 0, 2, List.replicate 4 10⟩
    ⟨1, 0, 42, 99, List.replicate 8 0⟩
    (by rw [show hdrB.ts = List.replicate 20 48 from rfl, List.length_replicate])
    (by rw [show hdrB.dbpath = List.replicate 128 0 from rfl, List.length_replicate])
    (by rw [show hdrB.reserved3 = List.replicate 8026 0 from rfl, List.length_replicate])
    (by decide) (by decide)
    (by decide) (by decide) (by decide)
    (by decide) (by decide) (by decide)
    (by decide) (by decide) (by decide) (by decide)
    (by decide) (by decide) (by decide) (by decide)
    (by decide) (by decide)
  ⟨hc.1, hc.2.1, hc.2.2.2.1, hc.2.2.2.2.2.1, hc.2.2.2.2.2.2.2.1,
    hc.2.2.2.2.2.2.2.2.2⟩

/- Helper lemmas about the 31-bit mask and the high bit. -/

lemma land_mask31_eq_mod (x : Nat) : x &&& 0x7fffffff = x % 2 ^ 31 := by
  have h := Nat.and_pow_two_sub_one_eq_mod x 31
  norm_num at h ⊢
  exact h

lemma lor_high_land_mask31 (x : Nat) :
    (x ||| 0x80000000) &&& 0x7fffffff = x &&& 0x7fffffff := by
  have h31 : (0x80000000 : Nat) = 2 ^ 31 := by norm_num
  have hm : (0x7fffffff : Nat) = 2 ^ 31 - 1 := by norm_num
  rw [h31, hm]
  apply Nat.eq_of_testBit_eq
  intro i
  simp only [Nat.testBit_and, Nat.testBit_or, Nat.testBit_two_pow,
    Nat.testBit_two_pow_sub_one]
  rcases Nat.lt_or_ge i 31 with h | h
  · simp [h, Nat.ne_of_gt h]
  · simp [Nat.not_lt.mpr h]

/-- C4: setting the local-db context bit and then clearing it is a no-op on
getFileNo(); neither setting nor clearing the 0x80000000 bit disturbs the
low 31 bits returned by getFileNo(); and isNsSuffix() holds exactly when
getFileNo() is 0x7fffffff. -/
theorem c4_fileNo_bit_packing (e : JEntry) :
    ((e.setLocalDbContextBit).clearLocalDbContextBit).getFileNo = e.getFileNo
    ∧ (e.setLocalDbContextBit).getFileNo = e.getFileNo
    ∧ (e.clearLocalDbContextBit).getFileNo = e.getFileNo
    ∧ (e.isNsSuffix = true ↔ e.getFileNo = JEntry.DotNsSuffix) := by
  have hset : (e.setLocalDbContextBit).getFileNo = e.getFileNo := by
    simp only [JEntry.setLocalDbContextBit, JEntry.getFileNo, JEntry.LocalDbBit]
    exact lor_high_land_mask31 e._fileNo
  have hidem : ∀ x : Nat, (x &&& 0x7fffffff) &&& 0x7fffffff = x &&& 0x7fffffff := by
    intro x
    rw [land_mask31_eq_mod, land_mask31_eq_mod]
    exact Nat.mod_mod_of_dvd x dvd_rfl
  refine ⟨?_, hset, ?_, ?_⟩
  · simp only [JEntry.clearLocalDbContextBit, JEntry.getFileNo]
    rw [hidem]
    exact hset
  · simp only [JEntry.clearLocalDbContextBit, JEntry.getFileNo]
    exact hidem e._fileNo
  · simp [JEntry.isNsSuffix]

/-- C10: setFileNo stores its argument unmodified; a file number with the
high bit clear round-trips through getFileNo() with isLocalDbContext()
false, while one with the high bit set makes isLocalDbContext() true and
reads back from getFileNo() with the bit removed. -/
theorem c10_setFileNo_verbatim (e : JEntry) (f : Nat) (hf : f < 2 ^ 32) :
    (e.setFileNo f)._fileNo = f
    ∧ (f &&& JEntry.LocalDbBit = 0 →
        (e.setFileNo f).getFileNo = f
        ∧ (e.setFileNo f).isLocalDbContext = false)
    ∧ (f &&& JEntry.LocalDbBit ≠ 0 →
        (e.setFileNo f).isLocalDbContext = true
        ∧ (e.setFileNo f).getFileNo = f - JEntry.LocalDbBit) := by
  have hmod : f % 2 ^ 32 = f := Nat.mod_eq_of_lt hf
  have hstore : (e.setFileNo f)._fileNo = f := by
    simpa [JEntry.setFileNo] using hmod
  have hhigh : f &&& JEntry.LocalDbBit = (f.testBit 31).toNat * 2 ^ 31 := by
    have h := Nat.and_two_pow f 31
    simpa [JEntry.LocalDbBit, show (2:Nat) ^ 31 = 0x80000000 by norm_num] using h
  have htb : f.testBit 31 = decide (f / 2 ^ 31 % 2 = 1) := Nat.testBit_to_div_mod
  have hget : (e.setFileNo f).getFileNo = f % 2 ^ 31 := by
    simp only [JEntry.getFileNo, hstore]
    exact land_mask31_eq_mod f
  refine ⟨hstore, ?_, ?_⟩
  · intro h0
    have hbit : f.testBit 31 = false := by
      rcases hb : f.testBit 31 with _ | _
      · rfl
      · rw [hhigh, hb] at h0
        norm_num at h0
    have hdiv : f / 2 ^ 31 % 2 ≠ 1 := by
      rw [htb] at hbit
      simpa using hbit
    have hlt : f < 2 ^ 31 := by omega
    constructor
    · rw [hget]
      exact Nat.mod_eq_of_lt hlt
    · simp [JEntry.isLocalDbContext, hstore, h0]
  · intro h1
    have hbit : f.testBit 31 = true := by
      rcases hb : f.testBit 31 with _ | _
      · rw [hhigh, hb] at h1
        norm_num at h1
      · rfl
    have hdiv : f / 2 ^ 31 % 2 = 1 := by
      rw [htb] at hbit
      simpa using hbit
    constructor
    · simp only [JEntry.isLocalDbContext, hstore]
      rw [hhigh, hbit]
      norm_num
    · rw [hget]
      simp only [JEntry.LocalDbBit]
      omega

/-- C10 witness: storing a low file number and a high-bit file number on a
concrete entry behaves as stated. -/
theorem c10_setFileNo_verbatim_witness :
    ((3:Nat) < 2 ^ 32)
    ∧ ((⟨0, 0, 0⟩ : JEntry).setFileNo 3).getFileNo = 3
    ∧ ((⟨0, 0, 0⟩ : JEntry).setFileNo 3).isLocalDbContext = false :=
  have h := c10_setFileNo_verbatim ⟨0, 0, 0⟩ 3 (by norm_num)
  have h2 := h.2.1 (by decide)
  ⟨by norm_num, h2.1, h2.2⟩

/-- C2 counterexample: corrupting the second magic byte of a fully valid
header leaves valid() true, where the claim requires any single-byte magic
corruption to falsify valid() (the source only inspects magic[0]). -/
theorem c2_counterexample :
    JHeader.valid hdrB = true
    ∧ ({ hdrB with magic1 := 88 } : JHeader).magic1 ≠ hdrB.magic1
    ∧ JHeader.valid { hdrB with magic1 := 88 } = true :=
  ⟨rfl, by decide, rfl⟩

/-- C2 (amended): valid() is true exactly when the first magic byte is the
letter j, the closing trailer byte is a linefeed, and fileId is nonzero;
corrupting the first magic byte or the closing trailer byte, or zeroing
fileId, falsifies it, while the second magic byte, the first trailer byte
and the version never influence it. -/
theorem c2_valid_characterization (h : JHeader) :
    (JHeader.valid h = true ↔ (h.magic0 = 106 ∧ h.txt2_1 = 10 ∧ h.fileId ≠ 0))
    ∧ (∀ b, b ≠ 106 → JHeader.valid { h with magic0 := b } = false)
    ∧ (∀ b, b ≠ 10 → JHeader.valid { h with txt2_1 := b } = false)
    ∧ JHeader.valid { h with fileId := 0 } = false
    ∧ (∀ b, JHeader.valid { h with magic1 := b } = JHeader.valid h)
    ∧ (∀ b, JHeader.valid { h with txt2_0 := b } = JHeader.valid h)
    ∧ (∀ v, JHeader.valid { h with _version := v } = JHeader.valid h) := by
  refine ⟨?_, ?_, ?_, ?_, fun b => rfl, fun b => rfl, fun v => rfl⟩
  · simp [JHeader.valid, and_assoc]
  · intro b hb
    simp [JHeader.valid, hb]
  · intro b hb
    simp [JHeader.valid, hb]
  · simp [JHeader.valid]

/-- C2 witness: the amended characterization applied to a concrete header
and a concrete corruption of the first magic byte. -/
theorem c2_valid_characterization_witness :
    JHeader.valid hdrB = true ∧ JHeader.valid { hdrB with magic0 := 65 } = false :=
  ⟨((c2_valid_characterization hdrB).1).mpr ⟨rfl, rfl, by decide⟩,
    ((c2_valid_characterization hdrB).2.1) 65 (by decide)⟩

/-- C3: versionOk() is true exactly when the stored version equals
CurrentVersion (0x4147); corrupting either little-endian byte of _version in
a header carrying the current version makes versionOk() false while valid()
is untouched. -/
theorem c3_versionOk_characterization (h : JHeader) :
    (JHeader.versionOk h = true ↔ h._version = JHeader.CurrentVersion)
    ∧ (h._version = JHeader.CurrentVersion →
        ∀ v2, (v2 % 256 ≠ h._version % 256 ∧ v2 / 256 = h._version / 256)
            ∨ (v2 % 256 = h._version % 256 ∧ v2 / 256 ≠ h._version / 256) →
          JHeader.versionOk { h with _version := v2 } = false
          ∧ JHeader.valid { h with _version := v2 } = JHeader.valid h) := by
  constructor
  · simp [JHeader.versionOk]
  · intro hcur v2 hbyte
    have hne : v2 ≠ h._version := by
      rcases hbyte with ⟨hlo, _⟩ | ⟨_, hhi⟩ <;> omega
    refine ⟨?_, rfl⟩
    rw [hcur] at hne
    simp [JHeader.versionOk, hne]

/-- C3 witness: a one-byte corruption of the version field of a concrete
current-version header falsifies versionOk() and leaves valid() unchanged. -/
theorem c3_versionOk_characterization_witness :
    hdrC._version = JHeader.CurrentVersion
    ∧ JHeader.versionOk { hdrC with _version := 0x4146 } = false
    ∧ JHeader.valid { hdrC with _version := 0x4146 } = JHeader.valid hdrC :=
  have h := (c3_versionOk_characterization hdrC).2 rfl 0x4146 (Or.inl ⟨by decide, by decide⟩)
  ⟨rfl, h.1, h.2⟩

/- Helper lemmas about sums of updated lists and the modelled digest. -/

lemma sum_set_getD :
    ∀ (l : List Nat) (i b : Nat), i < l.length →
      (l.set i b).sum + l.getD i 0 = l.sum + b := by
  intro l
  induction l with
  | nil =>
    intro i b h
    simp at h
  | cons x xs ih =>
    intro i b h
    cases i with
    | zero =>
      simp only [List.set, List.sum_cons, List.getD_cons_zero]
      omega
    | succ n =>
      have hn : n < xs.length := by simpa using h
      have hih := ih n b hn
      simp only [List.set, List.sum_cons, List.getD_cons_succ]
      omega

lemma md5_flip (l : List Nat) (i b : Nat) (hi : i < l.length) (hb : b < 256)
    (hl : l.getD i 0 < 256) (hne : b ≠ l.getD i 0) :
    md5 (l.set i b) ≠ md5 l := by
  have hs := sum_set_getD l i b hi
  intro heq
  have hhead : (l.set i b).sum % 256 = l.sum % 256 := by
    simpa [md5] using congrArg (fun t => t.headD 0) heq
  omega

/-- C1: the JSectFooter constructor digests exactly the bytes strictly after
the 20-byte section header; checkHash accepts the unmodified buffer; and
changing any single byte inside the hashed range (which excludes the header
and hence its len field) makes checkHash reject. -/
theorem c1_checksum_roundtrip_and_flip (buf : List Nat) (len : Nat) :
    (mkJSectFooter buf len).hash = md5 ((buf.take len).drop sizeofJSectHeader)
    ∧ (mkJSectFooter buf len).checkHash buf len = true
    ∧ ∀ i b, sizeofJSectHeader ≤ i → i < len → len ≤ buf.length →
        b < 256 → buf.getD i 0 < 256 → b ≠ buf.getD i 0 →
        (mkJSectFooter buf len).checkHash (buf.set i b) len = false := by
  refine ⟨rfl, by simp [mkJSectFooter, JSectFooter.checkHash], ?_⟩
  intro i b h20 hil hlb hb hbuf hne
  have hflip : ((buf.set i b).take len).drop sizeofJSectHeader
      = ((buf.take len).drop sizeofJSectHeader).set (i - sizeofJSectHeader) b := by
    rw [List.set_take, List.drop_set, if_neg (Nat.not_lt.mpr h20)]
  have hmlen : ((buf.take len).drop sizeofJSectHeader).length
      = len - sizeofJSectHeader := by
    simp only [List.length_drop, List.length_take, sizeofJSectHeader]
    omega
  have hgi : ((buf.take len).drop sizeofJSectHeader).getD (i - sizeofJSectHeader) 0
      = buf.getD i 0 := by
    rw [List.getD_eq_getElem?_getD, List.getElem?_drop,
      show sizeofJSectHeader + (i - sizeofJSectHeader) = i by
        simp only [sizeofJSectHeader] at h20 ⊢
        omega,
      List.getElem?_take, if_pos hil, ← List.getD_eq_getElem?_getD]
  have hidx : i - sizeofJSectHeader < ((buf.take len).drop sizeofJSectHeader).length := by
    rw [hmlen]
    simp only [sizeofJSectHeader] at h20 ⊢
    omega
  have hneq := md5_flip ((buf.take len).drop sizeofJSectHeader)
    (i - sizeofJSectHeader) b hidx hb (hgi ▸ hbuf) (hgi ▸ hne)
  simp only [JSectFooter.checkHash, mkJSectFooter, hflip]
  rw [beq_eq_false_iff_ne]
  exact fun h => hneq h.symm

/-- C1 witness: a concrete 25-byte section image round-trips, and a single
byte flip at offset 21 (inside the hashed range) is rejected. -/
theorem c1_checksum_roundtrip_and_flip_witness :
    sizeofJSectHeader ≤ 21 ∧ 21 < 25 ∧ 25 ≤ (List.replicate 25 1).length
    ∧ (7:Nat) < 256 ∧ (List.replicate 25 1).getD 21 0 < 256
    ∧ (7:Nat) ≠ (List.replicate 25 1).getD 21 0
    ∧ (mkJSectFooter (List.replicate 25 1) 25).checkHash (List.replicate 25 1) 25 = true
    ∧ (mkJSectFooter (List.replicate 25 1) 25).checkHash
        ((List.replicate 25 1).set 21 7) 25 = false :=
  ⟨by decide, by decide, by decide, by decide, by decide, by decide,
    (c1_checksum_roundtrip_and_flip (List.replicate 25 1) 25).2.1,
    (c1_checksum_roundtrip_and_flip (List.replicate 25 1) 25).2.2 21 7
      (by decide) (by decide) (by decide) (by decide) (by decide) (by decide)⟩

/-- C9: checkHash reads nothing of the footer beyond its hash field and
nothing of the buffer outside the hashed byte range: footers agreeing on the
hash field and buffers agreeing on the bytes strictly after the section
header produce the same verdict. -/
theorem c9_checkHash_only_hash_and_range (f g : JSectFooter)
    (buf1 buf2 : List Nat) (len : Nat) (hhash : f.hash = g.hash)
    (hrange : (buf1.take len).drop sizeofJSectHeader
      = (buf2.take len).drop sizeofJSectHeader) :
    f.checkHash buf1 len = g.checkHash buf2 len := by
  simp [JSectFooter.checkHash, hhash, hrange]

/-- C9 witness: corrupting sentinel, reserved and magic of a concrete footer
while keeping its hash leaves the checkHash verdict unchanged. -/
theorem c9_checkHash_only_hash_and_range_witness :
    ({ sentinel := 0, hash := (mkJSectFooter (List.replicate 25 2) 25).hash,
       reserved := 99, magic := [65, 66, 67, 68] } : JSectFooter).checkHash
        (List.replicate 25 2) 25
    = (mkJSectFooter (List.replicate 25 2) 25).checkHash (List.replicate 25 2) 25 :=
  c9_checkHash_only_hash_and_range _ _ _ _ 25 rfl rfl

/- Helper lemmas about the builder model. -/

lemma growWrite_len_data (b : AlignedBuilder) (bytes : List Nat)
    (hwf : b._data.length = b._len) :
    (growWrite b bytes)._len = b._len + bytes.length
    ∧ (growWrite b bytes)._data = b._data ++ bytes := by
  have ht : b._data.take b._len = b._data := by
    rw [← hwf]
    exact List.take_length b._data
  by_cases hg : b._size < b._len + bytes.length
  · constructor
    · simp [growWrite, growReallocate, _realloc, allocAligned, hg]
    · simp [growWrite, growReallocate, _realloc, allocAligned, hg, ht]
  · constructor <;> simp [growWrite, hg]

lemma alignUp_mod (n : Nat) : alignUp n % AlignedBuilder.Alignment = 0 := by
  unfold alignUp
  exact Nat.mul_mod_left _ _

lemma growWrite_addr (b : AlignedBuilder) (bytes : List Nat)
    (h : b._addr % AlignedBuilder.Alignment = 0) :
    (growWrite b bytes)._addr % AlignedBuilder.Alignment = 0 := by
  unfold growWrite growReallocate _realloc allocAligned
  by_cases hg : b._size < b._len + bytes.length
  · simp only [hg, if_true]
    exact alignUp_mod _
  · simpa [hg] using h

lemma reset_addr (b : AlignedBuilder)
    (h : b._addr % AlignedBuilder.Alignment = 0) :
    (b.reset)._addr % AlignedBuilder.Alignment = 0 := by
  unfold AlignedBuilder.reset _realloc allocAligned
  by_cases hg : sizeCap < b._size
  · simp only [hg, if_true]
    exact alignUp_mod _
  · simpa [hg] using h

lemma applyOp_addr (b : AlignedBuilder) (op : BuilderOp) (b2 : AlignedBuilder)
    (hb : b._addr % AlignedBuilder.Alignment = 0) (h : applyOp b op = some b2) :
    b2._addr % AlignedBuilder.Alignment = 0 := by
  cases op with
  | opAppendNum w v =>
    cases h
    exact growWrite_addr _ _ hb
  | opAppendBuf src =>
    cases h
    exact growWrite_addr _ _ hb
  | opSkip n =>
    cases h
    exact growWrite_addr _ _ hb
  | opAppendStr str includeEOO =>
    unfold applyOp AlignedBuilder.appendStr at h
    by_cases hn : str.length + (if includeEOO then 1 else 0) < BSONObjMaxUserSize
    · simp only [hn, if_true, Option.some.injEq] at h
      rw [← h]
      exact growWrite_addr _ _ hb
    · simp [hn] at h
  | opReset =>
    cases h
    exact reset_addr _ hb

lemma runOps_addr :
    ∀ (ops : List BuilderOp) (b b2 : AlignedBuilder),
      b._addr % AlignedBuilder.Alignment = 0 → runOps b ops = some b2 →
      b2._addr % AlignedBuilder.Alignment = 0 := by
  intro ops
  induction ops with
  | nil =>
    intro b b2 hb h
    cases h
    exact hb
  | cons op rest ih =>
    intro b b2 hb h
    unfold runOps at h
    cases hap : applyOp b op with
    | none => rw [hap] at h; cases h
    | some b1 =>
      rw [hap] at h
      exact ih b1 b2 (applyOp_addr b op b1 hb hap) h

/-- C6: reset() rewinds the in-use length to zero; if the capacity exceeded
the 128 MiB cap it shrinks it back to the cap, so the capacity is at most
128 MiB afterwards; a capacity at or below the cap is retained unchanged. -/
theorem c6_reset_semantics (b : AlignedBuilder) :
    (b.reset)._len = 0
    ∧ (b.reset)._size ≤ sizeCap
    ∧ (b._size ≤ sizeCap → (b.reset)._size = b._size) := by
  by_cases hg : sizeCap < b._size
  · refine ⟨by simp [AlignedBuilder.reset, _realloc, allocAligned, hg],
      by simp [AlignedBuilder.reset, _realloc, allocAligned, hg],
      fun hle => absurd hle (Nat.not_le.mpr hg)⟩
  · refine ⟨by simp [AlignedBuilder.reset, hg], ?_,
      fun hle => by simp [AlignedBuilder.reset, hg]⟩
    simpa [AlignedBuilder.reset, hg] using Nat.not_lt.mp hg

/-- C6 witness: reset() on a freshly constructed one-page builder keeps the
one-page capacity and zero length. -/
theorem c6_reset_semantics_witness :
    (mkAlignedBuilder 0)._size ≤ sizeCap
    ∧ ((mkAlignedBuilder 0).reset)._len = 0
    ∧ ((mkAlignedBuilder 0).reset)._size = (mkAlignedBuilder 0)._size :=
  ⟨by decide, (c6_reset_semantics (mkAlignedBuilder 0)).1,
    (c6_reset_semantics (mkAlignedBuilder 0)).2.2 (by decide)⟩

/-- C7: appendStr fails (the assert fires) exactly when the string size plus
the optional terminator byte reaches the maximum permitted document size; a
passing append extends the in-use bytes by exactly the string bytes plus the
terminator, growing the length by str.length plus one when included. -/
theorem c7_appendStr_guard (b : AlignedBuilder) (str : List Nat)
    (includeEOO : Bool) (hwf : b._data.length = b._len) :
    (b.appendStr str includeEOO = none ↔
      BSONObjMaxUserSize ≤ str.length + (if includeEOO then 1 else 0))
    ∧ (∀ b2, b.appendStr str includeEOO = some b2 →
        b2._len = b._len + str.length + (if includeEOO then 1 else 0)
        ∧ b2._data = b._data ++ (str ++ (if includeEOO then [0] else []))) := by
  constructor
  · constructor
    · intro h
      by_cases hn : str.length + (if includeEOO then 1 else 0) < BSONObjMaxUserSize
      · simp [AlignedBuilder.appendStr, hn] at h
      · omega
    · intro h
      have hn : ¬ (str.length + (if includeEOO then 1 else 0) < BSONObjMaxUserSize) := by
        omega
      simp [AlignedBuilder.appendStr, hn]
  · intro b2 h
    by_cases hn : str.length + (if includeEOO then 1 else 0) < BSONObjMaxUserSize
    · simp only [AlignedBuilder.appendStr, hn, if_true, Option.some.injEq] at h
      have hs := growWrite_len_data b (str ++ (if includeEOO then [0] else [])) hwf
      rw [← h]
      refine ⟨?_, hs.2⟩
      rw [hs.1, List.length_append]
      cases includeEOO <;> simp [Nat.add_assoc]
    · simp [AlignedBuilder.appendStr, hn] at h

/-- C7 witness: appending a two-byte string with terminator to a fresh
builder passes the guard and grows the in-use length to three. -/
theorem c7_appendStr_guard_witness :
    (mkAlignedBuilder 0)._data.length = (mkAlignedBuilder 0)._len
    ∧ ((mkAlignedBuilder 0).appendStr [104, 105] true = none ↔
        BSONObjMaxUserSize ≤ [104, 105].length + (if true then 1 else 0))
    ∧ ((mkAlignedBuilder 0).appendStr [104, 105] true).isSome = true :=
  ⟨rfl, (c7_appendStr_guard (mkAlignedBuilder 0) [104, 105] true rfl).1, by decide⟩

/-- C8: the backing storage address of an AlignedBuilder is page-aligned
(8192 bytes) after construction and stays page-aligned after every sequence
of append, skip, appendStr and reset operations, reallocation included. -/
theorem c8_alignment_invariant (initSize : Nat) (ops : List BuilderOp)
    (b2 : AlignedBuilder) (h : runOps (mkAlignedBuilder initSize) ops = some b2) :
    b2._addr % AlignedBuilder.Alignment = 0 := by
  apply runOps_addr ops (mkAlignedBuilder initSize) b2 _ h
  unfold mkAlignedBuilder allocAligned
  exact alignUp_mod 1

/-- C8 witness: a concrete run (skip five bytes, then reset) ends in a state
whose backing address is page-aligned. -/
theorem c8_alignment_invariant_witness :
    runOps (mkAlignedBuilder 0) [BuilderOp.opSkip 5, BuilderOp.opReset]
      = some ⟨[], 8192, 0, 8192, 16384⟩
    ∧ (⟨[], 8192, 0, 8192, 16384⟩ : AlignedBuilder)._addr
        % AlignedBuilder.Alignment = 0 :=
  ⟨by decide, c8_alignment_invariant 0 [BuilderOp.opSkip 5, BuilderOp.opReset]
    ⟨[], 8192, 0, 8192, 16384⟩ (by decide)⟩
